import Mathlib

/-!
Shallow embedding of the `jotai-statewatch` core
(`singleAtomWatcher`, `createFanInAggregator`, `intervalCallback`).

JavaScript `Map<string, V>` objects are modelled as association lists in
insertion order: `set` replaces the value in place when the key exists and
appends at the end otherwise, `get` returns the first (unique) binding.
All maps in the source start empty and are only mutated through `set`,
`delete` and `clear`, so their key lists are duplicate-free.

The runtime is single-threaded and cooperative; `async`/`await` boundaries
only interleave whole callback invocations, so each operation is modelled
as a pure state transformer, and the microtask queue of the aggregator is
modelled as an explicit counter of pending flush tasks.  Watcher callbacks
and interval actions run inside `try { await … } catch`, which catches
both synchronous throws and rejections, so their behaviour is a function
into `Except String Unit` (`error` = a thrown error or rejected promise).
The aggregator's reaction, by contrast, runs as
`Promise.resolve(cfg.callback(…)).catch(…)`, where only a rejection of the
returned promise is caught: a synchronous throw escapes `flush` before
`Promise.resolve` ever runs.  Its behaviour is therefore a function into
the three-valued `ReactionOutcome`, and an escaped synchronous throw is
carried explicitly in the results of `flushRun` and `dispose`.  The logger
is a trace of `LogEntry` values.
-/

namespace StateWatch

/-- One logger call: severity, message, and, for `error`, the error value. -/
inductive LogEntry where
  | debug (msg : String)
  | info (msg : String)
  | error (msg : String) (err : String)
deriving Repr, DecidableEq

/-- Model of `Map.get(k)`: first binding for `k`, if any. -/
def mapGet {V : Type} : List (String × V) → String → Option V
  | [], _ => none
  | p :: rest, k => if p.1 = k then some p.2 else mapGet rest k

/-- Model of `Map.set(k, v)`: replace the binding for `k` in place, else append. -/
def mapSet {V : Type} : List (String × V) → String → V → List (String × V)
  | [], k, v => [(k, v)]
  | p :: rest, k, v => if p.1 = k then (k, v) :: rest else p :: mapSet rest k v

/-- Model of `Map.delete(k)`: remove the binding for `k`; `true` iff it existed. -/
def mapDelete {V : Type} : List (String × V) → String → List (String × V) × Bool
  | [], _ => ([], false)
  | p :: rest, k =>
    if p.1 = k then (rest, true)
    else
      let r := mapDelete rest k
      (p :: r.1, r.2)

/-- The keys of a map, in insertion order. -/
def mapKeys {V : Type} (m : List (String × V)) : List String :=
  m.map (fun p => p.1)

/-! ## Single-atom watcher (`singleAtomWatcher.ts`) -/

/-- The event payload produced by a watcher (`WatcherEvent<T>` in `types.ts`).
`previous` is `none` where the source has `undefined`. -/
structure WatcherEvent (T : Type) where
  id : String
  current : T
  previous : Option T
  isInitial : Bool
  isChanged : Bool
deriving Repr, DecidableEq

/-- State of one `createSingleAtomWatcher` instance.  `Cb` is the callback
type (`SingleAtomCallback<T>`); `subscribed` models `unsubscribe !== null`;
`previousValue` is the closure variable of the current `startWatching`
activation; `subCount` counts `store.sub` calls and `unsubCount` counts
invocations of the stored unsubscribe handle. -/
structure WatcherState (T : Type) (Cb : Type) where
  callbacks : List (String × Cb)
  subscribed : Bool
  previousValue : Option T
  subCount : Nat
  unsubCount : Nat

/-- A freshly created watcher: empty callback map, not watching. -/
def initWatcherState (T : Type) (Cb : Type) : WatcherState T Cb :=
  { callbacks := [], subscribed := false, previousValue := none,
    subCount := 0, unsubCount := 0 }

/-- The `makeEvent` closure inside `startWatching`: reads `previousValue` at call
time, always sets `isChanged := true`. -/
def makeEvent {T : Type} (watcherId : String) (previousValue : Option T)
    (current : T) (isInitial : Bool) : WatcherEvent T :=
  { id := watcherId, current := current, previous := previousValue,
    isInitial := isInitial, isChanged := true }

/-- Model of `addCallback(cb, id)`: map-set semantics (same id replaces). -/
def addCallback {T Cb : Type} (s : WatcherState T Cb) (cb : Cb) (id : String) :
    WatcherState T Cb :=
  { s with callbacks := mapSet s.callbacks id cb }

/-- Model of `removeCallback(id)`: deletes the registration, returns whether it existed. -/
def removeCallback {T Cb : Type} (s : WatcherState T Cb) (id : String) :
    WatcherState T Cb × Bool :=
  let r := mapDelete s.callbacks id
  ({ s with callbacks := r.1 }, r.2)

/-- Model of `removeAllCallbacks()`. -/
def removeAllCallbacks {T Cb : Type} (s : WatcherState T Cb) : WatcherState T Cb :=
  { s with callbacks := [] }

/-- Model of `startWatching()`.  `sourceValue` is the live value `store.get(atom)`
returns during this call.  When already subscribed it returns immediately.
Otherwise it subscribes (`subCount` grows), then — exactly as the source
does — sets `previousValue = initialValue` *before* building the initial
event with `makeEvent(initialValue, true)`, so the dispatched initial event
carries `previous = some initialValue`.  Returns the dispatched event, if
any. -/
def startWatching {T Cb : Type} (watcherId : String) (sourceValue : T)
    (s : WatcherState T Cb) : WatcherState T Cb × Option (WatcherEvent T) :=
  if s.subscribed then (s, none)
  else
    let initialValue := sourceValue
    let previousValue := some initialValue
    let initialEvent := makeEvent watcherId previousValue initialValue true
    ({ s with subscribed := true, subCount := s.subCount + 1,
              previousValue := previousValue },
     some initialEvent)

/-- The subscription handler passed to `store.sub`: runs only while
subscribed; re-reads the value, builds the event with the *old*
`previousValue`, then stores the new value and dispatches. -/
def onSourceChange {T Cb : Type} (watcherId : String) (sourceValue : T)
    (s : WatcherState T Cb) : WatcherState T Cb × Option (WatcherEvent T) :=
  if s.subscribed then
    let currentValue := sourceValue
    let event := makeEvent watcherId s.previousValue currentValue false
    ({ s with previousValue := some currentValue }, some event)
  else (s, none)

/-- Model of `stopWatching()`: invokes and clears the unsubscribe handle if present,
no-op otherwise.  Callbacks are untouched. -/
def stopWatching {T Cb : Type} (s : WatcherState T Cb) : WatcherState T Cb :=
  if s.subscribed then
    { s with subscribed := false, unsubCount := s.unsubCount + 1 }
  else s

/-- Model of `getCurrentValue()`: live read of the source. -/
def getCurrentValue {T : Type} (sourceValue : T) : T := sourceValue

/-- The behaviour of one user callback: `ok` = resolves, `error` = throws or
rejects. -/
def SingleAtomCallback (T : Type) : Type := WatcherEvent T → Except String Unit

/-- Model of `dispatchEvent(event)`: logs a debug line, then invokes every registered
callback in registration order, one at a time (each awaited before the next),
catching a failure and logging it with the callback id; it never rethrows.
Returns the invocation trace (callback id and outcome, in execution order)
and the log trace. -/
def dispatchEvent {T : Type} (watcherId : String)
    (callbacks : List (String × SingleAtomCallback T)) (event : WatcherEvent T) :
    List (String × Except String Unit) × List LogEntry :=
  callbacks.foldl
    (fun acc p =>
      match p.2 event with
      | Except.ok _ => (acc.1 ++ [(p.1, Except.ok ())], acc.2)
      | Except.error err =>
        (acc.1 ++ [(p.1, Except.error err)],
         acc.2 ++ [LogEntry.error ("Error in callback " ++ p.1 ++ ":") err]))
    ([], [LogEntry.debug ("Dispatching event for watcher " ++ watcherId)])

/-! ## Fan-in aggregator (`createFanInAggregator.ts`) -/

/-- State of one aggregator: the per-turn buffer `queued`, the
last-known-value cache `lastValues`, and the `flushScheduled` flag. -/
structure AggState (T : Type) where
  queued : List (String × WatcherEvent T)
  lastValues : List (String × T)
  flushScheduled : Bool
deriving Repr, DecidableEq

/-- A freshly constructed aggregator. -/
def initAggState (T : Type) : AggState T :=
  { queued := [], lastValues := [], flushScheduled := false }

/-- One iteration of the `cfg.watchers.forEach` loop in `flush`: the
accumulator holds the `eventsObject` built so far and the current
`lastValues` map (which the loop mutates as it goes).  `read k` is
`watchers[k].getCurrentValue()`, a live read at flush time. -/
def flushStep {T : Type} (read : String → T)
    (queued : List (String × WatcherEvent T))
    (acc : List (String × WatcherEvent T) × List (String × T)) (k : String) :
    List (String × WatcherEvent T) × List (String × T) :=
  match mapGet queued k with
  | some queuedEvent =>
    (mapSet acc.1 k queuedEvent, mapSet acc.2 k queuedEvent.current)
  | none =>
    let current := read k
    (mapSet acc.1 k
       { id := k, current := current, previous := mapGet acc.2 k,
         isInitial := false, isChanged := false },
     mapSet acc.2 k current)

/-- The state-and-snapshot part of `flush`: clears `flushScheduled`, builds
the events object over the declared watcher keys, updates `lastValues`,
clears the turn buffer.  Returns the new state and the snapshot passed to
the reaction. -/
def flushCore {T : Type} (declared : List String) (read : String → T)
    (s : AggState T) : AggState T × List (String × WatcherEvent T) :=
  let result := declared.foldl (flushStep read s.queued) ([], s.lastValues)
  ({ queued := [], lastValues := result.2, flushScheduled := false }, result.1)

/-- Outcome of one invocation of the user reaction (`cfg.callback`) on a
snapshot.  The reaction's type is `void | Promise<void>`, so three things
can happen at the call site: it returns/resolves; it returns a promise
that later rejects; or it throws synchronously during the call itself. -/
inductive ReactionOutcome where
  | resolves
  | rejects (err : String)
  | throws (err : String)
deriving Repr, DecidableEq

/-- True exactly for a synchronous throw. -/
def ReactionOutcome.isThrow : ReactionOutcome → Bool
  | ReactionOutcome.throws _ => true
  | _ => false

/-- Result of one `flush()` execution: the state it leaves behind, the
snapshot handed to the reaction, the log trace, and — when the reaction
threw synchronously — the error that escaped `flush`.  All of flush's
state mutations (`flushScheduled = false`, cache updates, `queued.clear()`)
happen before the reaction call, so they persist in every case. -/
structure FlushResult (T : Type) where
  st : AggState T
  snapshot : List (String × WatcherEvent T)
  logs : List LogEntry
  thrown : Option String
deriving Repr, DecidableEq

/-- Model of `flush` including the reaction call
`Promise.resolve(cfg.callback(eventsObject)).catch(err => logger.error(…))`:
the `catch` attaches to the promise produced once `cfg.callback` has
returned, so a rejected outcome is caught and logged with the aggregator's
name, while a synchronous throw happens while evaluating the argument of
`Promise.resolve` and escapes `flush` uncaught and unlogged (`thrown`). -/
def flushRun {T : Type} (name : String) (declared : List String)
    (read : String → T)
    (reaction : List (String × WatcherEvent T) → ReactionOutcome)
    (s : AggState T) : FlushResult T :=
  let r := flushCore declared read s
  let logs := [LogEntry.info ("Executing user callback " ++ name),
               LogEntry.debug ("Executing user callback " ++ name)]
  match reaction r.2 with
  | ReactionOutcome.resolves =>
    { st := r.1, snapshot := r.2, logs := logs, thrown := none }
  | ReactionOutcome.rejects err =>
    { st := r.1, snapshot := r.2,
      logs := logs ++ [LogEntry.error ("Error executing user callback " ++ name) err],
      thrown := none }
  | ReactionOutcome.throws err =>
    { st := r.1, snapshot := r.2, logs := logs, thrown := some err }

/-- Model of `fanIn(event)` (the aggregator's ingest): last-write-wins into the turn
buffer, update the cache, and schedule a flush microtask only when none is
scheduled.  The returned `Bool` is true iff `queueMicrotask(flush)` was
called. -/
def fanIn {T : Type} (s : AggState T) (event : WatcherEvent T) :
    AggState T × Bool :=
  let s1 : AggState T :=
    { s with queued := mapSet s.queued event.id event,
             lastValues := mapSet s.lastValues event.id event.current }
  if s1.flushScheduled then (s1, false)
  else ({ s1 with flushScheduled := true }, true)

/-- Result of one `dispose()` call: the final aggregator state, the
snapshot delivered by a forced flush (if one was pending), the log trace,
and — when the flush's reaction threw synchronously — the error that
propagated out of `dispose` to its caller. -/
structure DisposeResult (T : Type) where
  st : AggState T
  delivered : Option (List (String × WatcherEvent T))
  logs : List LogEntry
  thrown : Option String
deriving Repr, DecidableEq

/-- Model of `dispose()`: if a flush is pending, run it synchronously now.
When the flush completes (reaction resolved or rejected), the following
`queued.clear()` and `lastValues.clear()` run and `dispose` returns
normally.  When the reaction threw synchronously, the exception propagates
out of `dispose` before those two lines run: the state is whatever `flush`
left behind (the turn buffer was already cleared inside `flush`, but the
last-known-value cache is not cleared). -/
def dispose {T : Type} (name : String) (declared : List String)
    (read : String → T)
    (reaction : List (String × WatcherEvent T) → ReactionOutcome)
    (s : AggState T) : DisposeResult T :=
  if s.flushScheduled then
    let r := flushRun name declared read reaction s
    match r.thrown with
    | some err =>
      { st := r.st, delivered := some r.snapshot, logs := r.logs,
        thrown := some err }
    | none =>
      { st := { r.st with queued := [], lastValues := [] },
        delivered := some r.snapshot, logs := r.logs, thrown := none }
  else
    { st := { s with queued := [], lastValues := [] }, delivered := none,
      logs := [], thrown := none }

/-- A world wrapping an aggregator state with its microtask queue:
`pendingFlushes` counts queued `flush` microtasks and `reactionCount`
counts completed reaction invocations. -/
structure AggWorld (T : Type) where
  st : AggState T
  pendingFlushes : Nat
  reactionCount : Nat
deriving Repr, DecidableEq

/-- One `fanIn` call seen at world level. -/
def ingestW {T : Type} (w : AggWorld T) (event : WatcherEvent T) : AggWorld T :=
  let r := fanIn w.st event
  { w with st := r.1,
           pendingFlushes := w.pendingFlushes + (if r.2 then 1 else 0) }

/-- A synchronous burst of ingest calls (no microtask runs in between). -/
def ingestBurst {T : Type} (w : AggWorld T) (events : List (WatcherEvent T)) :
    AggWorld T :=
  events.foldl ingestW w

/-- State-level burst: the aggregator state after a list of `fanIn` calls. -/
def ingestList {T : Type} (s : AggState T) (events : List (WatcherEvent T)) :
    AggState T :=
  events.foldl (fun s e => (fanIn s e).1) s

/-- Run one queued flush microtask, if any.  An uncaught synchronous throw
inside a microtask goes to the host's error handler and does not stop the
queue, so `st` advances to the flush's resulting state in every case and
the reaction invocation is counted whatever its outcome. -/
def drainOnce {T : Type} (name : String) (declared : List String)
    (read : String → T)
    (reaction : List (String × WatcherEvent T) → ReactionOutcome)
    (w : AggWorld T) : AggWorld T :=
  match w.pendingFlushes with
  | 0 => w
  | n + 1 =>
    { st := (flushRun name declared read reaction w.st).st,
      pendingFlushes := n,
      reactionCount := w.reactionCount + 1 }

/-- Drain the microtask queue at the end of the synchronous turn: every
queued flush task runs (our reactions schedule nothing new). -/
def drainN {T : Type} (name : String) (declared : List String)
    (read : String → T)
    (reaction : List (String × WatcherEvent T) → ReactionOutcome) :
    Nat → AggWorld T → AggWorld T
  | 0, w => w
  | n + 1, w => drainN name declared read reaction n
      (drainOnce name declared read reaction w)

/-- End-of-turn drain, running exactly the tasks queued so far. -/
def drain {T : Type} (name : String) (declared : List String)
    (read : String → T)
    (reaction : List (String × WatcherEvent T) → ReactionOutcome)
    (w : AggWorld T) : AggWorld T :=
  drainN name declared read reaction w.pendingFlushes w

/-- One full turn: a synchronous burst of ingest calls followed by the
end-of-turn microtask drain. -/
def runTurn {T : Type} (name : String) (declared : List String)
    (read : String → T)
    (reaction : List (String × WatcherEvent T) → ReactionOutcome)
    (w : AggWorld T) (events : List (WatcherEvent T)) : AggWorld T :=
  drain name declared read reaction (ingestBurst w events)

/-! ## Condition-gated periodic task (`intervalCallback.ts`) -/

/-- State of one `createIntervalCallback` instance.  `interval` is the armed
timer's id (at most one timer handle exists, as in the source's single
`interval` variable); `nextTimerId` generates fresh `setInterval` handles;
`clearedTimers` records every `clearInterval` call; `actionRuns` counts
invocations of `options.action`. -/
structure TaskState where
  interval : Option Nat
  nextTimerId : Nat
  clearedTimers : List Nat
  actionRuns : Nat
deriving Repr, DecidableEq

/-- A fresh task: no timer armed. -/
def initTaskState : TaskState :=
  { interval := none, nextTimerId := 0, clearedTimers := [], actionRuns := 0 }

/-- One invocation of the generated `callback(events)`.  The mutex makes
invocations run one at a time in the single-threaded runtime, so the model
is a plain state transformer.  `condResult` is the predicate's value on
this snapshot; `actionResult` the outcome of the immediate action run;
`runOnSetup` mirrors `options.runOnSetup` (`none` = undefined; the action
runs immediately iff `runOnSetup !== false`). -/
def intervalCallback (runOnSetup : Option Bool) (condResult : Bool)
    (actionResult : Except String Unit) (s : TaskState) :
    TaskState × List LogEntry :=
  let logs0 := [LogEntry.debug "Interval callback executed"]
  if condResult then
    let s1 : TaskState :=
      match s.interval with
      | some t => { s with interval := none, clearedTimers := s.clearedTimers ++ [t] }
      | none => s
    let r2 : TaskState × List LogEntry :=
      if runOnSetup ≠ some false then
        let s2 := { s1 with actionRuns := s1.actionRuns + 1 }
        match actionResult with
        | Except.ok _ => (s2, [])
        | Except.error err =>
          (s2, [LogEntry.error "Error executing interval action" err])
      else (s1, [])
    ({ r2.1 with interval := some r2.1.nextTimerId,
                 nextTimerId := r2.1.nextTimerId + 1 },
     logs0 ++ r2.2)
  else
    match s.interval with
    | some t =>
      ({ s with interval := none, clearedTimers := s.clearedTimers ++ [t] },
       logs0 ++ [LogEntry.debug "Condition failed - clearing interval"])
    | none => (s, logs0)

/-- One timer tick while armed: the action runs; a failure is logged and the
timer keeps running. -/
def intervalTick (actionResult : Except String Unit) (s : TaskState) :
    TaskState × List LogEntry :=
  let s1 := { s with actionRuns := s.actionRuns + 1 }
  match actionResult with
  | Except.ok _ => (s1, [])
  | Except.error err => (s1, [LogEntry.error "Error executing interval action" err])

/-- Model of `cleanup()`: unconditionally clears any armed timer. -/
def cleanup (s : TaskState) : TaskState × List LogEntry :=
  match s.interval with
  | some t =>
    ({ s with interval := none, clearedTimers := s.clearedTimers ++ [t] },
     [LogEntry.debug "Cleaning up interval"])
  | none => (s, [])

/-- What the flush loop produces for one declared id: the queued (real)
event when the id emitted this turn, else the synthetic filler built from a
live read and the pre-flush cache. -/
def snapEntry {T : Type} (read : String → T)
    (queued : List (String × WatcherEvent T)) (lv0 : List (String × T))
    (k : String) : WatcherEvent T :=
  match mapGet queued k with
  | some e => e
  | none =>
    { id := k, current := read k, previous := mapGet lv0 k,
      isInitial := false, isChanged := false }

/-- Recognises `logger.error` entries in a log trace. -/
def isErrorLog : LogEntry → Bool
  | LogEntry.error _ _ => true
  | _ => false

/-! ## Concrete fixtures used by the witness theorems -/

/-- A real event for source `a`. -/
def exEventA : WatcherEvent Nat :=
  { id := "a", current := 5, previous := some 4, isInitial := false, isChanged := true }

/-- A second, later event for source `a` in the same turn. -/
def exEventA2 : WatcherEvent Nat :=
  { id := "a", current := 6, previous := some 5, isInitial := false, isChanged := true }

/-- An aggregator mid-turn: `a` emitted, `b` only has a cached value. -/
def exAgg : AggState Nat :=
  { queued := [("a", exEventA)], lastValues := [("a", 5), ("b", 7)],
    flushScheduled := true }

/-- Live source reads at flush time. -/
def exRead : String → Nat := fun k => if k = "b" then 9 else 3

/-- A reaction that always resolves. -/
def exOkReaction : List (String × WatcherEvent Nat) → ReactionOutcome :=
  fun _ => ReactionOutcome.resolves

/-- A reaction whose returned promise always rejects. -/
def exRejectReaction : List (String × WatcherEvent Nat) → ReactionOutcome :=
  fun _ => ReactionOutcome.rejects "boom"

/-- A reaction that always throws synchronously. -/
def exThrowReaction : List (String × WatcherEvent Nat) → ReactionOutcome :=
  fun _ => ReactionOutcome.throws "boom"

/-- A quiescent aggregator world: no pending microtask, no reactions yet. -/
def exWorld : AggWorld Nat :=
  { st := initAggState Nat, pendingFlushes := 0, reactionCount := 0 }

/-! ## Map lemmas -/

theorem mapKeys_nil {V : Type} : mapKeys ([] : List (String × V)) = [] := rfl

theorem mapKeys_cons {V : Type} (p : String × V) (m : List (String × V)) :
    mapKeys (p :: m) = p.1 :: mapKeys m := rfl

theorem mapGet_mapSet_self {V : Type} (m : List (String × V)) (k : String) (v : V) :
    mapGet (mapSet m k v) k = some v := by
  induction m with
  | nil => simp [mapSet, mapGet]
  | cons p rest ih =>
    by_cases h : p.1 = k
    · simp [mapSet, mapGet, h]
    · simp [mapSet, mapGet, h, ih]

theorem mapGet_mapSet_ne {V : Type} (m : List (String × V)) (k k' : String) (v : V)
    (h : k' ≠ k) : mapGet (mapSet m k v) k' = mapGet m k' := by
  induction m with
  | nil => simp [mapSet, mapGet, Ne.symm h]
  | cons p rest ih =>
    by_cases hp : p.1 = k
    · simp [mapSet, mapGet, hp, Ne.symm h]
    · simp [mapSet, mapGet, hp, ih]

theorem mapKeys_mapSet_of_mem {V : Type} (m : List (String × V)) (k : String) (v : V)
    (h : k ∈ mapKeys m) : mapKeys (mapSet m k v) = mapKeys m := by
  induction m with
  | nil => simp [mapKeys] at h
  | cons p rest ih =>
    by_cases hp : p.1 = k
    · simp [mapSet, hp, mapKeys_cons]
    · rw [mapKeys_cons] at h
      have hmem : k ∈ mapKeys rest := by
        rcases List.mem_cons.mp h with h1 | h1
        · exact absurd h1.symm hp
        · exact h1
      simp [mapSet, hp, mapKeys_cons, ih hmem]

theorem mapKeys_mapSet_of_not_mem {V : Type} (m : List (String × V)) (k : String) (v : V)
    (h : k ∉ mapKeys m) : mapKeys (mapSet m k v) = mapKeys m ++ [k] := by
  induction m with
  | nil => simp [mapSet, mapKeys]
  | cons p rest ih =>
    rw [mapKeys_cons] at h
    have hp : p.1 ≠ k := fun hh => h (List.mem_cons.mpr (Or.inl hh.symm))
    have hrest : k ∉ mapKeys rest := fun hh => h (List.mem_cons.mpr (Or.inr hh))
    simp [mapSet, hp, mapKeys_cons, ih hrest]

theorem mapKeys_mapSet_nodup {V : Type} (m : List (String × V)) (k : String) (v : V)
    (h : (mapKeys m).Nodup) : (mapKeys (mapSet m k v)).Nodup := by
  by_cases hk : k ∈ mapKeys m
  · rw [mapKeys_mapSet_of_mem m k v hk]
    exact h
  · rw [mapKeys_mapSet_of_not_mem m k v hk]
    simpa [List.nodup_append] using ⟨h, fun hh => hk hh⟩

theorem mapGet_eq_none_of_not_mem {V : Type} (m : List (String × V)) (k : String)
    (h : k ∉ mapKeys m) : mapGet m k = none := by
  induction m with
  | nil => rfl
  | cons p rest ih =>
    rw [mapKeys_cons] at h
    have hp : p.1 ≠ k := fun hh => h (List.mem_cons.mpr (Or.inl hh.symm))
    have hrest : k ∉ mapKeys rest := fun hh => h (List.mem_cons.mpr (Or.inr hh))
    simp [mapGet, hp, ih hrest]

/-! ## Snapshot characterisation of `flushCore` -/

theorem mapSet_eq_append_of_not_mem {V : Type} (m : List (String × V)) (k : String)
    (v : V) (h : k ∉ mapKeys m) : mapSet m k v = m ++ [(k, v)] := by
  induction m with
  | nil => rfl
  | cons p rest ih =>
    rw [mapKeys_cons] at h
    have hp : p.1 ≠ k := fun hh => h (List.mem_cons.mpr (Or.inl hh.symm))
    have hrest : k ∉ mapKeys rest := fun hh => h (List.mem_cons.mpr (Or.inr hh))
    simp [mapSet, hp, ih hrest]

theorem mapKeys_append {V : Type} (m m' : List (String × V)) :
    mapKeys (m ++ m') = mapKeys m ++ mapKeys m' := by
  simp [mapKeys]

theorem mapKeys_map_mk {V : Type} (f : String → V) (keys : List String) :
    mapKeys (keys.map (fun k => (k, f k))) = keys := by
  induction keys with
  | nil => rfl
  | cons k ks ih => rw [List.map_cons, mapKeys_cons, ih]

theorem mapGet_map_mk {V : Type} (f : String → V) (keys : List String) (k : String)
    (hk : k ∈ keys) :
    mapGet (keys.map (fun k => (k, f k))) k = some (f k) := by
  induction keys with
  | nil => simp at hk
  | cons k0 ks ih =>
    by_cases h : k0 = k
    · simp [mapGet, h]
    · rcases List.mem_cons.mp hk with h1 | h1
      · exact absurd h1.symm h
      · simp [mapGet, h, ih h1]

theorem flushFold_eq {T : Type} (read : String → T)
    (queued : List (String × WatcherEvent T)) (lv0 : List (String × T)) :
    ∀ (keys : List String) (eo : List (String × WatcherEvent T))
      (lv : List (String × T)),
      keys.Nodup →
      (∀ k ∈ keys, k ∉ mapKeys eo) →
      (∀ k ∈ keys, mapGet lv k = mapGet lv0 k) →
      (keys.foldl (flushStep read queued) (eo, lv)).1
        = eo ++ keys.map (fun k => (k, snapEntry read queued lv0 k)) := by
  intro keys
  induction keys with
  | nil => intro eo lv _ _ _; simp
  | cons k ks ih =>
    intro eo lv hnd heo hlv
    have hknotks : k ∉ ks := (List.nodup_cons.mp hnd).1
    have hndks : ks.Nodup := (List.nodup_cons.mp hnd).2
    have hkeo : k ∉ mapKeys eo := heo k (List.mem_cons_self k ks)
    have hlvk : mapGet lv k = mapGet lv0 k := hlv k (List.mem_cons_self k ks)
    rw [List.foldl_cons]
    have hne : ∀ k' ∈ ks, k' ≠ k := fun k' hk' hh => hknotks (hh ▸ hk')
    cases hq : mapGet queued k with
    | some e =>
      have hstep : flushStep read queued (eo, lv) k
          = (eo ++ [(k, e)], mapSet lv k e.current) := by
        simp [flushStep, hq, mapSet_eq_append_of_not_mem eo k e hkeo]
      rw [hstep, ih (eo ++ [(k, e)]) (mapSet lv k e.current) hndks
        (by
          intro k' hk'
          rw [mapKeys_append]
          simp only [List.mem_append]
          rintro (h1 | h1)
          · exact heo k' (List.mem_cons.mpr (Or.inr hk')) h1
          · simp [mapKeys] at h1
            exact hne k' hk' h1)
        (by
          intro k' hk'
          rw [mapGet_mapSet_ne lv k k' e.current (hne k' hk')]
          exact hlv k' (List.mem_cons.mpr (Or.inr hk')))]
      have hentry : snapEntry read queued lv0 k = e := by
        simp [snapEntry, hq]
      simp [hentry]
    | none =>
      have hstep : flushStep read queued (eo, lv) k
          = (eo ++ [(k, snapEntry read queued lv0 k)], mapSet lv k (read k)) := by
        simp [flushStep, hq, snapEntry,
          mapSet_eq_append_of_not_mem eo k _ hkeo, hlvk]
      rw [hstep, ih (eo ++ [(k, snapEntry read queued lv0 k)])
        (mapSet lv k (read k)) hndks
        (by
          intro k' hk'
          rw [mapKeys_append]
          simp only [List.mem_append]
          rintro (h1 | h1)
          · exact heo k' (List.mem_cons.mpr (Or.inr hk')) h1
          · simp [mapKeys] at h1
            exact hne k' hk' h1)
        (by
          intro k' hk'
          rw [mapGet_mapSet_ne lv k k' (read k) (hne k' hk')]
          exact hlv k' (List.mem_cons.mpr (Or.inr hk')))]
      simp

/-- The snapshot a flush delivers, as a whole: one entry per declared id, in
declaration order. -/
theorem flushCore_snapshot {T : Type} (declared : List String) (read : String → T)
    (s : AggState T) (hnd : declared.Nodup) :
    (flushCore declared read s).2
      = declared.map (fun k => (k, snapEntry read s.queued s.lastValues k)) := by
  have h := flushFold_eq read s.queued s.lastValues declared [] s.lastValues hnd
    (by intro k _ hk; simp [mapKeys] at hk)
    (by intro k _; rfl)
  simpa [flushCore] using h

/-! ## Further helper lemmas -/

theorem flushRun_st {T : Type} (name : String) (declared : List String)
    (read : String → T)
    (reaction : List (String × WatcherEvent T) → ReactionOutcome)
    (s : AggState T) :
    (flushRun name declared read reaction s).st = (flushCore declared read s).1 := by
  cases h : reaction (flushCore declared read s).2 <;> simp [flushRun, h]

theorem flushRun_snapshot {T : Type} (name : String) (declared : List String)
    (read : String → T)
    (reaction : List (String × WatcherEvent T) → ReactionOutcome)
    (s : AggState T) :
    (flushRun name declared read reaction s).snapshot
      = (flushCore declared read s).2 := by
  cases h : reaction (flushCore declared read s).2 <;> simp [flushRun, h]

theorem flushRun_thrown_of_not_throw {T : Type} (name : String)
    (declared : List String) (read : String → T)
    (reaction : List (String × WatcherEvent T) → ReactionOutcome)
    (s : AggState T)
    (h : (reaction (flushCore declared read s).2).isThrow = false) :
    (flushRun name declared read reaction s).thrown = none := by
  cases hr : reaction (flushCore declared read s).2 with
  | resolves => simp [flushRun, hr]
  | rejects err => simp [flushRun, hr]
  | throws err =>
    rw [hr] at h
    simp [ReactionOutcome.isThrow] at h

theorem flushCore_flushScheduled {T : Type} (declared : List String)
    (read : String → T) (s : AggState T) :
    (flushCore declared read s).1.flushScheduled = false := rfl

/-- The dispatch loop, relative to an arbitrary accumulator. -/
theorem dispatchFold_eq {T : Type} (event : WatcherEvent T) :
    ∀ (cbs : List (String × SingleAtomCallback T))
      (acc : List (String × Except String Unit) × List LogEntry),
      cbs.foldl
        (fun acc p =>
          match p.2 event with
          | Except.ok _ => (acc.1 ++ [(p.1, Except.ok ())], acc.2)
          | Except.error err =>
            (acc.1 ++ [(p.1, Except.error err)],
             acc.2 ++ [LogEntry.error ("Error in callback " ++ p.1 ++ ":") err]))
        acc
      = (acc.1 ++ cbs.map (fun p => (p.1, p.2 event)),
         acc.2 ++ cbs.filterMap (fun p =>
           match p.2 event with
           | Except.ok _ => none
           | Except.error err =>
             some (LogEntry.error ("Error in callback " ++ p.1 ++ ":") err))) := by
  intro cbs
  induction cbs with
  | nil => intro acc; simp
  | cons p rest ih =>
    intro acc
    rw [List.foldl_cons]
    cases hp : p.2 event with
    | ok u =>
      rw [ih]
      simp [hp]
    | error err =>
      rw [ih]
      simp [hp]

/-- Last-write-wins in the turn buffer over one synchronous burst of events
that all name the same source id. -/
theorem ingestList_queued_getLast {T : Type} (k : String) :
    ∀ (events : List (WatcherEvent T)) (s : AggState T) (e : WatcherEvent T),
      (∀ ev ∈ events, ev.id = k) → events.getLast? = some e →
      mapGet (ingestList s events).queued k = some e := by
  intro events
  induction events with
  | nil => intro s e _ hlast; simp at hlast
  | cons ev rest ih =>
    intro s e hids hlast
    cases rest with
    | nil =>
      simp at hlast
      subst hlast
      have hid : ev.id = k := hids ev (List.mem_cons_self ev [])
      simp [ingestList, fanIn, hid]
      split <;> exact mapGet_mapSet_self _ _ _
    | cons ev2 rest2 =>
      have hlast2 : (ev2 :: rest2).getLast? = some e := by
        rw [List.getLast?_cons_cons] at hlast
        exact hlast
      have hids2 : ∀ ev' ∈ ev2 :: rest2, ev'.id = k :=
        fun ev' h => hids ev' (List.mem_cons.mpr (Or.inr h))
      have : ingestList s (ev :: ev2 :: rest2)
          = ingestList (fanIn s ev).1 (ev2 :: rest2) := rfl
      rw [this]
      exact ih (fanIn s ev).1 e hids2 hlast2

theorem fanIn_queued_eq {T : Type} (s : AggState T) (e : WatcherEvent T) :
    (fanIn s e).1.queued = mapSet s.queued e.id e := by
  by_cases h1 : s.flushScheduled = true <;> simp [fanIn, h1]

/-- The map `fanIn` leaves in the turn buffer's keys duplicate-free. -/
theorem fanIn_queued_nodup {T : Type} (s : AggState T) (e : WatcherEvent T)
    (h : (mapKeys s.queued).Nodup) : (mapKeys (fanIn s e).1.queued).Nodup := by
  rw [fanIn_queued_eq]
  exact mapKeys_mapSet_nodup _ _ _ h

theorem ingestList_queued_nodup {T : Type} :
    ∀ (events : List (WatcherEvent T)) (s : AggState T),
      (mapKeys s.queued).Nodup → (mapKeys (ingestList s events).queued).Nodup := by
  intro events
  induction events with
  | nil => intro s h; exact h
  | cons ev rest ih =>
    intro s h
    exact ih (fanIn s ev).1 (fanIn_queued_nodup s ev h)

/-- While a flush is already scheduled, further ingests never queue another
microtask. -/
theorem fanIn_already_scheduled {T : Type} (s : AggState T) (e : WatcherEvent T)
    (h : s.flushScheduled = true) :
    (fanIn s e).1.flushScheduled = true ∧ (fanIn s e).2 = false := by
  unfold fanIn
  simp [h]

theorem ingestW_already_scheduled {T : Type} (w : AggWorld T) (e : WatcherEvent T)
    (h : w.st.flushScheduled = true) :
    (ingestW w e).st.flushScheduled = true ∧
    (ingestW w e).pendingFlushes = w.pendingFlushes ∧
    (ingestW w e).reactionCount = w.reactionCount := by
  unfold ingestW
  rcases fanIn_already_scheduled w.st e h with ⟨h1, h2⟩
  simp [h1, h2]

theorem ingestBurst_already_scheduled {T : Type} :
    ∀ (events : List (WatcherEvent T)) (w : AggWorld T),
      w.st.flushScheduled = true →
      (ingestBurst w events).st.flushScheduled = true ∧
      (ingestBurst w events).pendingFlushes = w.pendingFlushes ∧
      (ingestBurst w events).reactionCount = w.reactionCount := by
  intro events
  induction events with
  | nil => intro w h; exact ⟨h, rfl, rfl⟩
  | cons e rest ih =>
    intro w h
    rcases ingestW_already_scheduled w e h with ⟨h1, h2, h3⟩
    have hrec := ih (ingestW w e) h1
    have hstep : ingestBurst w (e :: rest) = ingestBurst (ingestW w e) rest := rfl
    rw [hstep]
    exact ⟨hrec.1, hrec.2.1.trans h2, hrec.2.2.trans h3⟩

/-- The first ingest of a turn schedules the flush and flips the flag. -/
theorem ingestW_fresh {T : Type} (w : AggWorld T) (e : WatcherEvent T)
    (h : w.st.flushScheduled = false) :
    (ingestW w e).st.flushScheduled = true ∧
    (ingestW w e).pendingFlushes = w.pendingFlushes + 1 ∧
    (ingestW w e).reactionCount = w.reactionCount := by
  unfold ingestW fanIn
  simp [h]

/-- A nonempty synchronous burst starting with no flush scheduled queues
exactly one flush microtask. -/
theorem ingestBurst_fresh {T : Type} (w : AggWorld T) (e : WatcherEvent T)
    (events : List (WatcherEvent T)) (h : w.st.flushScheduled = false) :
    (ingestBurst w (e :: events)).st.flushScheduled = true ∧
    (ingestBurst w (e :: events)).pendingFlushes = w.pendingFlushes + 1 ∧
    (ingestBurst w (e :: events)).reactionCount = w.reactionCount := by
  have hstep : ingestBurst w (e :: events) = ingestBurst (ingestW w e) events := rfl
  rcases ingestW_fresh w e h with ⟨h1, h2, h3⟩
  rw [hstep]
  rcases ingestBurst_already_scheduled events (ingestW w e) h1 with ⟨g1, g2, g3⟩
  exact ⟨g1, by rw [g2, h2], by rw [g3, h3]⟩

/-- Draining a single queued flush task. -/
theorem drain_one {T : Type} (name : String) (declared : List String)
    (read : String → T)
    (reaction : List (String × WatcherEvent T) → ReactionOutcome)
    (w : AggWorld T) (h : w.pendingFlushes = 1) :
    drain name declared read reaction w
      = { st := (flushRun name declared read reaction w.st).st,
          pendingFlushes := 0, reactionCount := w.reactionCount + 1 } := by
  unfold drain
  rw [h]
  unfold drainN drainOnce
  rw [h]
  rfl

/-! ## Claim theorems -/

/-- C1: the claim says the very first event dispatched by `startWatching`
has `previous` absent.  Evaluating the embedded `startWatching` on a fresh
watcher over a source whose live read yields `0` shows the initial event is
`{ id := "w", current := 0, previous := some 0, isInitial := true,
isChanged := true }`: `previous` is present (equal to `current`), because
the implementation assigns `previousValue = initialValue` *before* calling
`makeEvent`, contradicting the documented `WatcherEvent.previous` contract
in `types.ts` ("undefined on the very first event").  The claim's other
parts hold, as the second conjunct shows for the next real change: its
`previous` equals the first event's `current`. -/
theorem c1_initial_event_previous_not_absent :
    (startWatching "w" (0 : Nat) (initWatcherState Nat Unit)).2
      = some { id := "w", current := 0, previous := some 0,
               isInitial := true, isChanged := true } ∧
    (onSourceChange "w" (1 : Nat)
        (startWatching "w" (0 : Nat) (initWatcherState Nat Unit)).1).2
      = some { id := "w", current := 1, previous := some 0,
               isInitial := false, isChanged := true } := by
  exact ⟨rfl, rfl⟩

/-- C9: `startWatching` is idempotent — after a first call from the
unsubscribed state, a second call returns immediately with no event and the
source has been subscribed exactly once (`subCount` grew by one in total);
`stopWatching` on a watcher that is not watching is a no-op; and
`stopWatching` leaves the registered callbacks of any watcher untouched. -/
theorem c9_start_idempotent_stop_noop {T Cb : Type} (watcherId : String)
    (v v' : T) (s s' : WatcherState T Cb) (h : s.subscribed = false) :
    startWatching watcherId v' (startWatching watcherId v s).1
      = ((startWatching watcherId v s).1, none) ∧
    (startWatching watcherId v s).1.subCount = s.subCount + 1 ∧
    stopWatching s = s ∧
    (stopWatching s').callbacks = s'.callbacks := by
  refine ⟨?_, ?_, ?_, ?_⟩
  · simp [startWatching, h]
  · simp [startWatching, h]
  · simp [stopWatching, h]
  · by_cases hs : s'.subscribed = true <;> simp [stopWatching, hs]

/-- Witness for C9: a fresh watcher over a `Nat` source, stopped state and
started state instantiated concretely. -/
theorem c9_witness :
    (initWatcherState Nat Unit).subscribed = false ∧
    (startWatching "w" 1 (startWatching "w" 0 (initWatcherState Nat Unit)).1
       = ((startWatching "w" 0 (initWatcherState Nat Unit)).1, none) ∧
     (startWatching "w" 0 (initWatcherState Nat Unit)).1.subCount
       = (initWatcherState Nat Unit).subCount + 1 ∧
     stopWatching (initWatcherState Nat Unit) = initWatcherState Nat Unit ∧
     (stopWatching (startWatching "w" 0 (initWatcherState Nat Unit)).1).callbacks
       = (startWatching "w" 0 (initWatcherState Nat Unit)).1.callbacks) :=
  ⟨rfl, c9_start_idempotent_stop_noop "w" 0 1 (initWatcherState Nat Unit)
      (startWatching "w" 0 (initWatcherState Nat Unit)).1 rfl⟩

/-- C6: for every dispatched event, all currently registered callbacks are
invoked, in registration order, one at a time (the returned trace lists the
settled invocations in execution order); each failing callback contributes
exactly one error log carrying that callback's id and the error; a failure
aborts nothing (the trace covers every registration whatever the outcomes);
and `dispatchEvent` returns normally, never propagating a callback failure
to the subscription machinery. -/
theorem c6_dispatch_order_and_isolation {T : Type} (watcherId : String)
    (callbacks : List (String × SingleAtomCallback T)) (event : WatcherEvent T) :
    (dispatchEvent watcherId callbacks event).1
      = callbacks.map (fun p => (p.1, p.2 event)) ∧
    (dispatchEvent watcherId callbacks event).2
      = LogEntry.debug ("Dispatching event for watcher " ++ watcherId)
        :: callbacks.filterMap (fun p =>
            match p.2 event with
            | Except.ok _ => none
            | Except.error err =>
              some (LogEntry.error ("Error in callback " ++ p.1 ++ ":") err)) := by
  unfold dispatchEvent
  rw [dispatchFold_eq]
  exact ⟨by simp, by simp⟩

/-- C2: with a declared subset of size `N` (a set: duplicate-free ids),
every flush delivers a snapshot with exactly `N` entries, one per declared
id; and the entry for any declared id with no buffered event this turn is
synthetic: `isChanged = false`, `isInitial = false`, `previous` equal to
the aggregator's last-known value for that id (the pre-flush cache), and
`current` equal to a fresh live read of that source, not the cached
value. -/
theorem c2_flush_snapshot_complete_with_fillers {T : Type} (declared : List String)
    (read : String → T) (s : AggState T) (k : String)
    (hnd : declared.Nodup) (hk : k ∈ declared)
    (hq : mapGet s.queued k = none) :
    (flushCore declared read s).2.length = declared.length ∧
    mapKeys (flushCore declared read s).2 = declared ∧
    mapGet (flushCore declared read s).2 k
      = some { id := k, current := read k, previous := mapGet s.lastValues k,
               isInitial := false, isChanged := false } := by
  have hsnap := flushCore_snapshot declared read s hnd
  refine ⟨?_, ?_, ?_⟩
  · rw [hsnap]; simp
  · rw [hsnap, mapKeys_map_mk]
  · rw [hsnap, mapGet_map_mk _ declared k hk]
    simp [snapEntry, hq]

/-- Witness for C2: declared ids `a`, `b`, where `a` emitted this turn and
`b` is silent with cached last value `7` and live value `9`. -/
theorem c2_witness :
    (["a", "b"] : List String).Nodup ∧ "b" ∈ ["a", "b"] ∧
    mapGet exAgg.queued "b" = none ∧
    ((flushCore ["a", "b"] exRead exAgg).2.length = (["a", "b"] : List String).length ∧
     mapKeys (flushCore ["a", "b"] exRead exAgg).2 = ["a", "b"] ∧
     mapGet (flushCore ["a", "b"] exRead exAgg).2 "b"
       = some { id := "b", current := exRead "b",
                previous := mapGet exAgg.lastValues "b",
                isInitial := false, isChanged := false }) :=
  ⟨by decide, by decide, by decide,
   c2_flush_snapshot_complete_with_fillers ["a", "b"] exRead exAgg "b"
     (by decide) (by decide) (by decide)⟩

/-- C10: when a declared id has no buffered event this turn *and* no entry
in the aggregator's last-known-value cache (no real or synthetic event was
ever seen for it), the synthetic filler delivered for it has `previous`
absent even though its `isInitial` is `false` — an absent `previous` is not
exclusive to a watcher's very first event. -/
theorem c10_filler_previous_absent_without_cache {T : Type} (declared : List String)
    (read : String → T) (s : AggState T) (k : String)
    (hnd : declared.Nodup) (hk : k ∈ declared)
    (hq : mapGet s.queued k = none) (hlv : mapGet s.lastValues k = none) :
    mapGet (flushCore declared read s).2 k
      = some { id := k, current := read k, previous := none,
               isInitial := false, isChanged := false } := by
  rw [flushCore_snapshot declared read s hnd, mapGet_map_mk _ declared k hk]
  simp [snapEntry, hq, hlv]

/-- Witness for C10: a fresh aggregator flushing over declared id `c`. -/
theorem c10_witness :
    (["c"] : List String).Nodup ∧ "c" ∈ ["c"] ∧
    mapGet (initAggState Nat).queued "c" = none ∧
    mapGet (initAggState Nat).lastValues "c" = none ∧
    mapGet (flushCore ["c"] exRead (initAggState Nat)).2 "c"
      = some { id := "c", current := exRead "c", previous := none,
               isInitial := false, isChanged := false } :=
  ⟨by decide, by decide, by decide, by decide,
   c10_filler_previous_absent_without_cache ["c"] exRead (initAggState Nat) "c"
     (by decide) (by decide) (by decide) (by decide)⟩

/-- C3: within one open turn, when every ingest call names the same source
id, the turn buffer keeps only the last call's event (last-write-wins) and
holds at most one event per id (its key list stays duplicate-free), and the
next flush's real entry for that id is exactly the last call's event —
hence carries exactly the last call's `current` and `previous`. -/
theorem c3_last_write_wins {T : Type} (declared : List String) (read : String → T)
    (s : AggState T) (k : String) (events : List (WatcherEvent T))
    (e : WatcherEvent T)
    (hids : ∀ ev ∈ events, ev.id = k) (hlast : events.getLast? = some e)
    (hnd : declared.Nodup) (hk : k ∈ declared)
    (hqnd : (mapKeys s.queued).Nodup) :
    mapGet (ingestList s events).queued k = some e ∧
    (mapKeys (ingestList s events).queued).Nodup ∧
    mapGet (flushCore declared read (ingestList s events)).2 k = some e := by
  have hq := ingestList_queued_getLast k events s e hids hlast
  refine ⟨hq, ingestList_queued_nodup events s hqnd, ?_⟩
  rw [flushCore_snapshot declared read _ hnd, mapGet_map_mk _ declared k hk]
  simp [snapEntry, hq]

/-- Witness for C3: two same-turn events for id `a`; the buffer and the
flushed snapshot both carry only the second one. -/
theorem c3_witness :
    mapGet (ingestList (initAggState Nat) [exEventA, exEventA2]).queued "a"
      = some exEventA2 ∧
    (mapKeys (ingestList (initAggState Nat) [exEventA, exEventA2]).queued).Nodup ∧
    mapGet (flushCore ["a"] exRead
        (ingestList (initAggState Nat) [exEventA, exEventA2])).2 "a"
      = some exEventA2 :=
  c3_last_write_wins ["a"] exRead (initAggState Nat) "a" [exEventA, exEventA2]
    exEventA2 (by decide) (by decide) (by decide) (by decide) (by decide)

/-- C4, counterexample: the claim says any reaction failure — thrown error
or rejected outcome — is logged with the aggregator's name and the error
value and is never rethrown to the caller of `dispose`.  With a reaction
that throws synchronously (`exThrowReaction`) on the pending aggregator
`exAgg`, the error escapes `flush` (`thrown = some "boom"`), the error log
entry never appears in the flush's log trace, and the error propagates out
of `dispose` to its caller: `Promise.resolve(cfg.callback(…)).catch` only
catches rejections of the returned promise, not synchronous throws. -/
theorem c4_counterexample_sync_throw_escapes :
    (flushRun "agg" ["a", "b"] exRead exThrowReaction exAgg).thrown
      = some "boom" ∧
    LogEntry.error ("Error executing user callback " ++ "agg") "boom"
      ∉ (flushRun "agg" ["a", "b"] exRead exThrowReaction exAgg).logs ∧
    (dispose "agg" ["a", "b"] exRead exThrowReaction exAgg).thrown
      = some "boom" := by
  refine ⟨by decide, by decide, by decide⟩

/-- C4, amended: for every flush, a *rejected* reaction outcome is logged
with the aggregator's name and the error value and is never rethrown — the
flush completes with the failure-free state and snapshot and nothing
escapes (`thrown = none`), and `dispose`, which runs the pending flush,
returns normally with the cleared state and the same log trace.  (A
synchronously thrown reaction error, by contrast, escapes `flush` unlogged
and reaches the caller of `dispose`, as the counterexample shows.) -/
theorem c4_rejected_reaction_logged_not_rethrown {T : Type} (name : String)
    (declared : List String) (read : String → T)
    (reaction : List (String × WatcherEvent T) → ReactionOutcome)
    (s : AggState T) (err : String)
    (hs : s.flushScheduled = true)
    (hr : reaction (flushCore declared read s).2 = ReactionOutcome.rejects err) :
    (flushRun name declared read reaction s).st = (flushCore declared read s).1 ∧
    (flushRun name declared read reaction s).snapshot
      = (flushCore declared read s).2 ∧
    LogEntry.error ("Error executing user callback " ++ name) err
      ∈ (flushRun name declared read reaction s).logs ∧
    (flushRun name declared read reaction s).thrown = none ∧
    dispose name declared read reaction s
      = { st := { queued := [], lastValues := [], flushScheduled := false },
          delivered := some (flushCore declared read s).2,
          logs := (flushRun name declared read reaction s).logs,
          thrown := none } := by
  have hth : (flushRun name declared read reaction s).thrown = none := by
    simp [flushRun, hr]
  refine ⟨flushRun_st name declared read reaction s,
          flushRun_snapshot name declared read reaction s, ?_, hth, ?_⟩
  · simp [flushRun, hr]
  · simp only [dispose, hs, if_true, hth]
    simp [flushRun_st, flushRun_snapshot, flushCore_flushScheduled]

/-- Witness for C4 (amended): the mid-turn aggregator `exAgg` flushed with
a reaction whose promise rejects with `"boom"`. -/
theorem c4_witness :
    exAgg.flushScheduled = true ∧
    exRejectReaction (flushCore ["a", "b"] exRead exAgg).2
      = ReactionOutcome.rejects "boom" ∧
    ((flushRun "agg" ["a", "b"] exRead exRejectReaction exAgg).st
       = (flushCore ["a", "b"] exRead exAgg).1 ∧
     (flushRun "agg" ["a", "b"] exRead exRejectReaction exAgg).snapshot
       = (flushCore ["a", "b"] exRead exAgg).2 ∧
     LogEntry.error ("Error executing user callback " ++ "agg") "boom"
       ∈ (flushRun "agg" ["a", "b"] exRead exRejectReaction exAgg).logs ∧
     (flushRun "agg" ["a", "b"] exRead exRejectReaction exAgg).thrown = none ∧
     dispose "agg" ["a", "b"] exRead exRejectReaction exAgg
       = { st := { queued := [], lastValues := [], flushScheduled := false },
           delivered := some (flushCore ["a", "b"] exRead exAgg).2,
           logs := (flushRun "agg" ["a", "b"] exRead exRejectReaction exAgg).logs,
           thrown := none }) :=
  ⟨rfl, rfl,
   c4_rejected_reaction_logged_not_rethrown "agg" ["a", "b"] exRead
     exRejectReaction exAgg "boom" rfl rfl⟩

/-- C8, counterexample: the claim says `dispose` with a pending flush runs
it and then clears both the turn buffer and the last-known-value cache.
With a synchronously throwing reaction on `exAgg`, the exception raised
inside the forced flush propagates out of `dispose` (`thrown = some
"boom"`), so `lastValues.clear()` is never reached and the cache is left
non-empty — the unconditional "clears both" part of the claim fails. -/
theorem c8_counterexample_sync_throw_skips_clear :
    exAgg.flushScheduled = true ∧
    (dispose "agg" ["a", "b"] exRead exThrowReaction exAgg).thrown
      = some "boom" ∧
    (dispose "agg" ["a", "b"] exRead exThrowReaction exAgg).st.lastValues
      ≠ [] := by
  refine ⟨by decide, by decide, by decide⟩

/-- C8, amended: `dispose` on an aggregator with a flush pending runs that
flush immediately and synchronously before returning — the snapshot it
delivers is produced inside `dispose` and carries every buffered event for
a declared id, so no buffered event is lost — and, provided the reaction
does not throw synchronously, `dispose` then clears both the turn buffer
and the last-known-value cache and returns normally (nothing escapes).
(When the reaction throws synchronously the exception propagates to the
caller before the cache is cleared, as the counterexample shows.) -/
theorem c8_dispose_flushes_then_clears {T : Type} (name : String)
    (declared : List String) (read : String → T)
    (reaction : List (String × WatcherEvent T) → ReactionOutcome)
    (s : AggState T) (k : String) (e : WatcherEvent T)
    (hs : s.flushScheduled = true) (hnd : declared.Nodup) (hk : k ∈ declared)
    (hq : mapGet s.queued k = some e)
    (hnt : (reaction (flushCore declared read s).2).isThrow = false) :
    (dispose name declared read reaction s).delivered
      = some (flushCore declared read s).2 ∧
    mapGet (flushCore declared read s).2 k = some e ∧
    (dispose name declared read reaction s).st.queued = [] ∧
    (dispose name declared read reaction s).st.lastValues = [] ∧
    (dispose name declared read reaction s).thrown = none := by
  have hth : (flushRun name declared read reaction s).thrown = none :=
    flushRun_thrown_of_not_throw name declared read reaction s hnt
  refine ⟨?_, ?_, ?_, ?_, ?_⟩
  · simp [dispose, hs, hth, flushRun_snapshot]
  · rw [flushCore_snapshot declared read s hnd, mapGet_map_mk _ declared k hk]
    simp [snapEntry, hq]
  · simp [dispose, hs, hth]
  · simp [dispose, hs, hth]
  · simp [dispose, hs, hth]

/-- Witness for C8 (amended): disposing `exAgg` (pending flush, event
buffered for `a`) with a resolving reaction delivers that event, clears
both maps and returns normally. -/
theorem c8_witness :
    exAgg.flushScheduled = true ∧
    mapGet exAgg.queued "a" = some exEventA ∧
    (exOkReaction (flushCore ["a", "b"] exRead exAgg).2).isThrow = false ∧
    ((dispose "agg" ["a", "b"] exRead exOkReaction exAgg).delivered
       = some (flushCore ["a", "b"] exRead exAgg).2 ∧
     mapGet (flushCore ["a", "b"] exRead exAgg).2 "a" = some exEventA ∧
     (dispose "agg" ["a", "b"] exRead exOkReaction exAgg).st.queued = [] ∧
     (dispose "agg" ["a", "b"] exRead exOkReaction exAgg).st.lastValues = [] ∧
     (dispose "agg" ["a", "b"] exRead exOkReaction exAgg).thrown = none) :=
  ⟨rfl, rfl, rfl,
   c8_dispose_flushes_then_clears "agg" ["a", "b"] exRead exOkReaction exAgg
     "a" exEventA rfl (by decide) (by decide) rfl rfl⟩

/-- C5: all ingest calls of one synchronous burst are coalesced into exactly
one deferred flush — the first call schedules it and every later call of
the burst finds `flushScheduled` set and schedules nothing — so after the
end-of-turn drain the reaction has run exactly once for the turn; the flush
resets `flushScheduled`, so a burst arriving after it opens a new turn that
again schedules exactly one flush and one further reaction run. -/
theorem c5_one_flush_per_turn {T : Type} (name : String) (declared : List String)
    (read : String → T)
    (reaction : List (String × WatcherEvent T) → ReactionOutcome)
    (w : AggWorld T) (e1 e2 : WatcherEvent T)
    (rest1 rest2 : List (WatcherEvent T))
    (h0 : w.st.flushScheduled = false) (hp : w.pendingFlushes = 0) :
    (ingestBurst w (e1 :: rest1)).pendingFlushes = 1 ∧
    (runTurn name declared read reaction w (e1 :: rest1)).reactionCount
      = w.reactionCount + 1 ∧
    (runTurn name declared read reaction w (e1 :: rest1)).pendingFlushes = 0 ∧
    (runTurn name declared read reaction w (e1 :: rest1)).st.flushScheduled
      = false ∧
    (ingestBurst (runTurn name declared read reaction w (e1 :: rest1))
        (e2 :: rest2)).pendingFlushes = 1 ∧
    (runTurn name declared read reaction
        (runTurn name declared read reaction w (e1 :: rest1))
        (e2 :: rest2)).reactionCount
      = w.reactionCount + 2 := by
  rcases ingestBurst_fresh w e1 rest1 h0 with ⟨b1, b2, b3⟩
  have hpend1 : (ingestBurst w (e1 :: rest1)).pendingFlushes = 1 := by
    rw [b2, hp]
  have hdrain1 : runTurn name declared read reaction w (e1 :: rest1)
      = { st := (flushRun name declared read reaction
                   (ingestBurst w (e1 :: rest1)).st).st,
          pendingFlushes := 0,
          reactionCount := (ingestBurst w (e1 :: rest1)).reactionCount + 1 } := by
    unfold runTurn
    exact drain_one name declared read reaction _ hpend1
  have hsched2 : (runTurn name declared read reaction w (e1 :: rest1)).st.flushScheduled
      = false := by
    rw [hdrain1]
    simp [flushRun_st, flushCore_flushScheduled]
  have hcount1 : (runTurn name declared read reaction w (e1 :: rest1)).reactionCount
      = w.reactionCount + 1 := by
    rw [hdrain1]
    simp [b3]
  have hpend0 : (runTurn name declared read reaction w (e1 :: rest1)).pendingFlushes
      = 0 := by
    rw [hdrain1]
  rcases ingestBurst_fresh (runTurn name declared read reaction w (e1 :: rest1))
      e2 rest2 hsched2 with ⟨c1, c2, c3⟩
  have hpend2 : (ingestBurst (runTurn name declared read reaction w (e1 :: rest1))
      (e2 :: rest2)).pendingFlushes = 1 := by
    rw [c2, hpend0]
  have hdrain2 : runTurn name declared read reaction
      (runTurn name declared read reaction w (e1 :: rest1)) (e2 :: rest2)
      = { st := (flushRun name declared read reaction
                   (ingestBurst (runTurn name declared read reaction w (e1 :: rest1))
                     (e2 :: rest2)).st).st,
          pendingFlushes := 0,
          reactionCount := (ingestBurst
              (runTurn name declared read reaction w (e1 :: rest1))
              (e2 :: rest2)).reactionCount + 1 } := by
    unfold runTurn
    exact drain_one name declared read reaction _ hpend2
  refine ⟨hpend1, hcount1, hpend0, hsched2, hpend2, ?_⟩
  rw [hdrain2]
  simp [c3, hcount1]

/-- Witness for C5: two bursts of concrete events over a fresh aggregator
world. -/
theorem c5_witness :
    exWorld.st.flushScheduled = false ∧ exWorld.pendingFlushes = 0 ∧
    ((ingestBurst exWorld [exEventA, exEventA2]).pendingFlushes = 1 ∧
     (runTurn "agg" ["a"] exRead exOkReaction exWorld
        [exEventA, exEventA2]).reactionCount = exWorld.reactionCount + 1 ∧
     (runTurn "agg" ["a"] exRead exOkReaction exWorld
        [exEventA, exEventA2]).pendingFlushes = 0 ∧
     (runTurn "agg" ["a"] exRead exOkReaction exWorld
        [exEventA, exEventA2]).st.flushScheduled = false ∧
     (ingestBurst (runTurn "agg" ["a"] exRead exOkReaction exWorld
        [exEventA, exEventA2]) [exEventA2]).pendingFlushes = 1 ∧
     (runTurn "agg" ["a"] exRead exOkReaction
        (runTurn "agg" ["a"] exRead exOkReaction exWorld [exEventA, exEventA2])
        [exEventA2]).reactionCount = exWorld.reactionCount + 2) :=
  ⟨rfl, rfl,
   c5_one_flush_per_turn "agg" ["a"] exRead exOkReaction exWorld
     exEventA exEventA2 [exEventA2] [] rfl rfl⟩

/-- C7: one invocation of the periodic-task callback behaves as the claim
states: if the predicate holds, any existing timer is cleared first, the
action runs once immediately exactly when the immediate-run flag is not
`false` (a failure only adds an error log entry — logged, never
propagated), and exactly one new repeating timer is armed (a fresh handle,
the handle counter growing by one); if the predicate fails while a timer is
armed, the timer is cleared and the task becomes Idle; if the predicate
fails while Idle, the call leaves the state unchanged; and `cleanup`
unconditionally disarms. -/
theorem c7_periodic_task_transitions (runOnSetup : Option Bool)
    (condResult : Bool) (actionResult : Except String Unit) (s : TaskState) :
    (intervalCallback runOnSetup condResult actionResult s).1
      = (if condResult then
           { interval := some s.nextTimerId,
             nextTimerId := s.nextTimerId + 1,
             clearedTimers := s.clearedTimers ++ s.interval.toList,
             actionRuns := s.actionRuns
               + (if runOnSetup ≠ some false then 1 else 0) }
         else
           { s with interval := none,
                    clearedTimers := s.clearedTimers ++ s.interval.toList }) ∧
    (intervalCallback runOnSetup condResult actionResult s).2.filter isErrorLog
      = (if condResult = true ∧ runOnSetup ≠ some false then
           match actionResult with
           | Except.ok _ => []
           | Except.error err =>
             [LogEntry.error "Error executing interval action" err]
         else []) ∧
    (cleanup s).1.interval = none ∧
    (cleanup s).1.clearedTimers = s.clearedTimers ++ s.interval.toList := by
  refine ⟨?_, ?_, ?_, ?_⟩
  · obtain ⟨i, n, c, a⟩ := s
    cases condResult <;> cases i <;>
      by_cases hr : runOnSetup = some false <;> cases actionResult <;>
        simp [intervalCallback, hr]
  · obtain ⟨i, n, c, a⟩ := s
    cases condResult <;> cases i <;>
      by_cases hr : runOnSetup = some false <;> cases actionResult <;>
        simp [intervalCallback, isErrorLog, hr]
  · cases hi : s.interval <;> simp [cleanup, hi]
  · cases hi : s.interval <;> simp [cleanup, hi]

end StateWatch
